import Mathlib

/-!
Verification of the `fresh_news_2` news-collection robot (`collectors.py`,
`tasks.py`) against its specification.  The Python code is shallowly embedded:
pure string/number computations become Lean functions, the Selenium/Calendar
environment becomes explicit input data (event streams, page lists), and the
stateful collection loops become structurally recursive Lean functions over
that data.
-/

namespace FreshNews

/-! ### A small regular-expression engine

`News.__get_money` builds a Python regular expression from four alternatives
and applies `re.search` to the title and the description.  We embed exactly the
constructs that pattern uses: character classes, concatenation, alternation,
Kleene star, the `^` anchor and the `$` anchor.  `re.search` succeeds iff the
pattern matches starting at some position of the string; `^` matches only at
position 0 and `$` only at the end (the pattern is used without MULTILINE, and
the scanned texts contain no newline).  `\d` is modelled as an ASCII digit. -/

inductive RE where
  | eps : RE
  | cls (p : Char → Bool) : RE
  | seq (a b : RE) : RE
  | alt (a b : RE) : RE
  | star (r : RE) : RE
  | bol : RE
  | eol : RE

/-- Matches `body` zero or more times, each iteration consuming at least one
character (for existence of a match this loses nothing: empty star iterations
can always be dropped), then hands the rest to the continuation `k`. -/
def starMatch (body : List Char → (List Char → Bool) → Bool) :
    Nat → List Char → (List Char → Bool) → Bool
  | 0, s, k => k s
  | fuel + 1, s, k =>
    k s || body s (fun t =>
      if t.length < s.length then starMatch body fuel t k else false)

/-- Continuation-passing matcher: `reMatch total fuel r s k` is true iff `r`
can match a prefix of `s` and `k` accepts the remaining suffix.  `total` is the
length of the whole subject string, so `^` (`bol`) matches exactly when no
character has been consumed yet. -/
def reMatch (total fuel : Nat) : RE → List Char → (List Char → Bool) → Bool
  | .eps, s, k => k s
  | .cls _, [], _ => false
  | .cls p, c :: s, k => p c && k s
  | .seq a b, s, k => reMatch total fuel a s (fun t => reMatch total fuel b t k)
  | .alt a b, s, k => reMatch total fuel a s k || reMatch total fuel b s k
  | .star r, s, k => starMatch (fun t k2 => reMatch total fuel r t k2) fuel s k
  | .bol, s, k => (s.length == total) && k s
  | .eol, s, k => s.isEmpty && k s

/-- `re.search`: the pattern matches starting at some position of `s`. -/
def reSearch (r : RE) (s : String) : Bool :=
  let cs := s.toList
  (List.range (cs.length + 1)).any (fun i =>
    reMatch cs.length (cs.length + 1) r (cs.drop i) (fun _ => true))

def chr (c : Char) : RE := .cls (fun x => x == c)

def lit (s : String) : RE := s.toList.foldr (fun c r => .seq (chr c) r) .eps

/-- `\d` (ASCII). -/
def digitRE : RE := .cls Char.isDigit

/-- `\D`. -/
def nonDigitRE : RE := .cls (fun c => !c.isDigit)

/-- `[1-9]`. -/
def nonZeroRE : RE := .cls (fun c => 49 ≤ c.toNat && c.toNat ≤ 57)

def seqs (l : List RE) : RE := l.foldr .seq .eps

/-! ### The money pattern of `News.__get_money` -/

/-- `(\d|[1-9]\d*)`. -/
def intRE : RE := .alt digitRE (.seq nonZeroRE (.star digitRE))

/-- `\d{0,2}`. -/
def upToTwoDigitsRE : RE := .alt .eps (.seq digitRE (.alt .eps digitRE))

/-- `(\d|[1-9]\d{0,2}(,\d{3})*)`. -/
def groupedIntRE : RE :=
  .alt digitRE
    (.seq nonZeroRE (.seq upToTwoDigitsRE
      (.star (seqs [chr ',', digitRE, digitRE, digitRE]))))

/-- `($|\D)`. -/
def endOrNonDigitRE : RE := .alt .eol nonDigitRE

/-- `(^|\D)`. -/
def startOrNonDigitRE : RE := .alt .bol nonDigitRE

/-- `\$(\d|[1-9]\d*)\.\d($|\D)`. -/
def moneyBranch1 : RE := seqs [chr '$', intRE, chr '.', digitRE, endOrNonDigitRE]

/-- `\$(\d|[1-9]\d{0,2}(,\d{3})*)\.\d\d($|\D)`. -/
def moneyBranch2 : RE :=
  seqs [chr '$', groupedIntRE, chr '.', digitRE, digitRE, endOrNonDigitRE]

/-- `(^|\D)(\d|[1-9]\d*) dollars`. -/
def moneyBranch3 : RE := seqs [startOrNonDigitRE, intRE, lit " dollars"]

/-- `(^|\D)(\d|[1-9]\d*) USD`. -/
def moneyBranch4 : RE := seqs [startOrNonDigitRE, intRE, lit " USD"]

/-- The `"|"`-join of the four alternatives in `News.__get_money`. -/
def moneyRE : RE := .alt moneyBranch1 (.alt moneyBranch2 (.alt moneyBranch3 moneyBranch4))

/-- `News.__get_money`: true iff the pattern matches the title or the
description. -/
def getMoney (title description : String) : Bool :=
  reSearch moneyRE title || reSearch moneyRE description

/-! ### `News.__get_count`

Python's `str.count(sub)` counts non-overlapping occurrences of `sub`,
scanning left to right; for the empty substring it returns `len(s) + 1`. -/

/-- Non-overlapping left-to-right occurrence count.  Every step consumes at
least one character, so `fuel = s.length` iterations always suffice. -/
def pyCountAux (sub : List Char) : Nat → List Char → Nat
  | 0, _ => 0
  | fuel + 1, s =>
    match s with
    | [] => 0
    | c :: rest =>
      if sub.isPrefixOf (c :: rest) then
        1 + pyCountAux sub fuel (rest.drop (sub.length - 1))
      else
        pyCountAux sub fuel rest

/-- Python `s.count(sub)` (for the empty substring it is `len(s) + 1`). -/
def pyCount (s sub : String) : Nat :=
  if sub.toList.isEmpty then s.toList.length + 1
  else pyCountAux sub.toList s.toList.length s.toList

/-- `News.__get_count`: occurrences of the search phrase in the title plus in
the description. -/
def getCount (title description searchPhrase : String) : Nat :=
  pyCount title searchPhrase + pyCount description searchPhrase

/-! ### `APNewsCollector.__init__`: months normalization

`self.__months = months if months == 0 else months - 1`. -/

def normMonths (months : Int) : Int :=
  if months = 0 then months else months - 1

/-! ### SHA-1 (`hashlib.sha1(...).hexdigest()`), used by `News.__get_picture`

Bytes are naturals `< 256`, 32-bit words are naturals reduced mod `2 ^ 32`. -/

def w32 (x : Nat) : Nat := x % 4294967296

/-- Rotate a 32-bit word left by `n` (callers pass words `< 2 ^ 32`). -/
def rotl (n x : Nat) : Nat := ((x <<< n) % 4294967296) ||| (x >>> (32 - n))

/-- The SHA-1 round function for round `t`. -/
def sha1F (t b c d : Nat) : Nat :=
  if t < 20 then (b &&& c) ||| ((4294967295 ^^^ b) &&& d)
  else if t < 40 then b ^^^ c ^^^ d
  else if t < 60 then (b &&& c) ||| (b &&& d) ||| (c &&& d)
  else b ^^^ c ^^^ d

/-- The SHA-1 round constant for round `t`. -/
def sha1K (t : Nat) : Nat :=
  if t < 20 then 0x5A827999
  else if t < 40 then 0x6ED9EBA1
  else if t < 60 then 0x8F1BBCDC
  else 0xCA62C1D6

/-- Big-endian 4-byte groups to 32-bit words. -/
def bytesToWords : List Nat → List Nat
  | b0 :: b1 :: b2 :: b3 :: rest =>
    (b0 * 16777216 + b1 * 65536 + b2 * 256 + b3) :: bytesToWords rest
  | _ => []

/-- Extend the 16 message words to 80 (`n` = number of words still to add). -/
def sha1Extend : Nat → Array Nat → Array Nat
  | 0, w => w
  | n + 1, w =>
    let i := w.size
    let x := rotl 1 ((w.getD (i - 3) 0) ^^^ (w.getD (i - 8) 0) ^^^
                     (w.getD (i - 14) 0) ^^^ (w.getD (i - 16) 0))
    sha1Extend n (w.push x)

/-- One SHA-1 round: state `(a, b, c, d, e)` and `(round index, w[t])`. -/
def sha1Round (st : Nat × Nat × Nat × Nat × Nat) (tw : Nat × Nat) :
    Nat × Nat × Nat × Nat × Nat :=
  let (t, wt) := tw
  let (a, b, c, d, e) := st
  let tmp := w32 (rotl 5 a + sha1F t b c d + e + sha1K t + wt)
  (tmp, a, rotl 30 b, c, d)

/-- Compress one 64-byte block into the running hash state. -/
def sha1Block (h : Nat × Nat × Nat × Nat × Nat) (block : List Nat) :
    Nat × Nat × Nat × Nat × Nat :=
  let w := sha1Extend 64 (bytesToWords block).toArray
  let (a, b, c, d, e) := ((List.range 80).zip w.toList).foldl sha1Round h
  let (h0, h1, h2, h3, h4) := h
  (w32 (h0 + a), w32 (h1 + b), w32 (h2 + c), w32 (h3 + d), w32 (h4 + e))

/-- Merkle–Damgård padding: `0x80`, zeros, then the 64-bit big-endian bit
length, reaching a multiple of 64 bytes. -/
def sha1Pad (msg : List Nat) : List Nat :=
  let bitLen := msg.length * 8
  let zeros := (119 - msg.length % 64) % 64
  msg ++ [128] ++ List.replicate zeros 0 ++
    (List.range 8).map (fun i => (bitLen >>> ((7 - i) * 8)) % 256)

/-- Split into 64-byte chunks (`fuel` bounds the recursion). -/
def chunks64 : Nat → List Nat → List (List Nat)
  | 0, _ => []
  | _, [] => []
  | fuel + 1, l => l.take 64 :: chunks64 fuel (l.drop 64)

/-- The five 32-bit words of the SHA-1 digest of a byte string. -/
def sha1Words (msg : List Nat) : Nat × Nat × Nat × Nat × Nat :=
  let padded := sha1Pad msg
  (chunks64 padded.length padded).foldl sha1Block
    (0x67452301, 0xEFCDAB89, 0x98BADCFE, 0x10325476, 0xC3D2E1F0)

def hexDigit (n : Nat) : Char :=
  if n < 10 then Char.ofNat (48 + n) else Char.ofNat (87 + n)

def wordHex (w : Nat) : List Char :=
  (List.range 8).map (fun i => hexDigit ((w >>> ((7 - i) * 4)) % 16))

/-- `hashlib.sha1(bytes).hexdigest()`. -/
def sha1Hex (msg : List Nat) : String :=
  let (h0, h1, h2, h3, h4) := sha1Words msg
  String.mk (wordHex h0 ++ wordHex h1 ++ wordHex h2 ++ wordHex h3 ++ wordHex h4)

/-- The picture filename built in `News.__get_picture`:
`f"{pic_sha1}.png"`. -/
def picName (picBytes : List Nat) : String := sha1Hex picBytes ++ ".png"

/-! ### The retry loop of `News.__get_picture`

Each iteration of the `while attempts:` loop asks the browser for the `img`
element; the environment answers with the screenshot bytes, with
`NoSuchElementException`, or with `StaleElementReferenceException`.  We model
the environment as a stream of such answers, indexed by iteration. -/

inductive PicEvent where
  | found (picBytes : List Nat) : PicEvent
  | noSuchElement : PicEvent
  | staleElement : PicEvent

/-- `getPictureLoop env attempts i` runs the loop with `attempts` remaining
tries, reading the answer for iteration `i` from `env`.  It returns the final
`self.__picture` value together with the remaining `attempts` counter.
Reaching `attempts = 0` is only possible after a stale iteration, which sets
the picture to `""`. -/
def getPictureLoop (env : Nat → PicEvent) : Nat → Nat → String × Nat
  | 0, _ => ("", 0)
  | attempts + 1, i =>
    match env i with
    | .found bs => (picName bs, attempts + 1)
    | .noSuchElement => ("", attempts + 1)
    | .staleElement => getPictureLoop env attempts (i + 1)

/-- `News.ATTEMPTS`. -/
def NEWS_ATTEMPTS : Nat := 5

/-- `News.__get_picture` under environment `env`. -/
def getPicture (env : Nat → PicEvent) : String × Nat :=
  getPictureLoop env NEWS_ATTEMPTS 0

/-! ### The collection loop of `APNewsCollector.__get_news`

The environment is modelled as the sequence of result pages the browser
serves: each page carries its result elements and the text of the
`Pagination-pageCounts` indicator already split at `" of "`.  Each element
carries the data the loop extracts from it: whether the wall-clock deadline
check fires at its guard, the derived `news.date` string, and the value the
`Calendar` utility returns as the month difference to session start. -/

structure NewsItem where
  timedOut : Bool
  date : String
  monthsDiff : Int
deriving DecidableEq, Repr

structure ResultsPage where
  items : List NewsItem
  current : String
  total : String
deriving DecidableEq, Repr

/-- `APNewsCollector.FAULTS_TOLERANCE`. -/
def FAULTS_TOLERANCE : Int := 5

/-- Python string `<`: lexicographic by code point, a proper prefix being
smaller. -/
def strLtB : List Char → List Char → Bool
  | [], [] => false
  | [], _ :: _ => true
  | _ :: _, [] => false
  | a :: as, b :: bs =>
    if a < b then true else if b < a then false else strLtB as bs

/-- The pagination test of `__get_news`, line `if current < total:`.  Both
sides are the pieces of the `"current of total"` display string, so this is
Python string comparison: lexicographic on code points. -/
def pageAdvance (current total : String) : Bool :=
  strLtB current.toList total.toList

/-- Result of processing the elements of one page. -/
structure ItemsResult where
  remainingFaults : Int
  persisted : List NewsItem
  returnedEarly : Bool
  faultTrace : List Int
deriving DecidableEq, Repr

/-- The inner `for element in ...:` loop of `__get_news`: `rf` is
`remaining_faults` on entry; `faultTrace` records every value assigned to
`remaining_faults` while processing the page; `persisted` is the list of items
passed to `news.save_elements()`; `returnedEarly` records the `return` on
deadline or exhausted fault budget (Python `not remaining_faults` is true
exactly when the integer is 0). -/
def processItems (cutoff : Int) : List NewsItem → Int → ItemsResult
  | [], rf => ⟨rf, [], false, []⟩
  | it :: rest, rf =>
    if it.timedOut = true ∨ rf = 0 then ⟨rf, [], true, []⟩
    else if it.date = "" then
      let r := processItems cutoff rest (rf - 1)
      ⟨r.remainingFaults, r.persisted, r.returnedEarly, (rf - 1) :: r.faultTrace⟩
    else if it.monthsDiff > cutoff then
      let r := processItems cutoff rest (rf - 1)
      ⟨r.remainingFaults, r.persisted, r.returnedEarly, (rf - 1) :: r.faultTrace⟩
    else
      let r := processItems cutoff rest FAULTS_TOLERANCE
      ⟨r.remainingFaults, it :: r.persisted, r.returnedEarly,
        FAULTS_TOLERANCE :: r.faultTrace⟩

/-- Result of the whole collection loop. -/
structure LoopResult where
  remainingFaults : Int
  persisted : List NewsItem
  nextClicks : Nat
  faultTrace : List Int
deriving DecidableEq, Repr

/-- The outer `while remaining_faults > 0:` loop of `__get_news`, consuming
the served pages in order.  After a page completes without an early return,
the pagination indicator is read and the next-page control is clicked iff
`current < total` (string comparison); otherwise the loop returns. -/
def getNewsLoop (cutoff : Int) : List ResultsPage → Int → LoopResult
  | [], rf => ⟨rf, [], 0, []⟩
  | pg :: rest, rf =>
    if rf > 0 then
      let r := processItems cutoff pg.items rf
      if r.returnedEarly then ⟨r.remainingFaults, r.persisted, 0, r.faultTrace⟩
      else if pageAdvance pg.current pg.total then
        let l := getNewsLoop cutoff rest r.remainingFaults
        ⟨l.remainingFaults, r.persisted ++ l.persisted, l.nextClicks + 1,
          r.faultTrace ++ l.faultTrace⟩
      else ⟨r.remainingFaults, r.persisted, 0, r.faultTrace⟩
    else ⟨rf, [], 0, []⟩

/-- `APNewsCollector.__get_news`: the loop starts with
`remaining_faults = FAULTS_TOLERANCE`. -/
def getNews (cutoff : Int) (pages : List ResultsPage) : LoopResult :=
  getNewsLoop cutoff pages FAULTS_TOLERANCE

/-! ### The category filter of `APNewsCollector.__filter_news`

`categories` is split at `","`, lower-cased, and collected into a set; the
loop repeatedly opens the filter heading and scans the checkbox labels in page
order, clicking the first one whose lower-cased text is in the set and
removing it, until a scan finds nothing or the set is empty. -/

/-- Python `str.split` with a one-character separator: in particular
`"".split(",") == [""]`. -/
def pySplitAux (sep : Char) : List Char → List Char → List String
  | [], acc => [String.mk acc.reverse]
  | c :: rest, acc =>
    if c = sep then String.mk acc.reverse :: pySplitAux sep rest []
    else pySplitAux sep rest (c :: acc)

def pySplit (s : String) (sep : Char) : List String :=
  pySplitAux sep s.toList []

/-- Python `str.lower()` (the scanned labels are ASCII). -/
def pyLower (s : String) : String := String.mk (s.toList.map Char.toLower)

/-- The set `{category.lower() for category in self.__categories.split(",")}`,
represented as a duplicate-free list. -/
def categorySet (categories : String) : List String :=
  ((pySplit categories ',').map pyLower).dedup

/-- The `while found and len(categories):` loop; returns the number of times
the filter heading is opened and the lower-cased labels clicked, in order.
Each successful scan removes one category, so `fuel = |set| + 1` never runs
out. -/
def filterLoopAux (labels : List String) : Nat → List String → Nat × List String
  | 0, _ => (0, [])
  | fuel + 1, cats =>
    if cats.isEmpty then (0, [])
    else
      match labels.find? (fun l => cats.contains (pyLower l)) with
      | some l =>
        let r := filterLoopAux labels fuel (cats.erase (pyLower l))
        (r.1 + 1, pyLower l :: r.2)
      | none => (1, [])

/-- The category-filtering part of `__filter_news` under a page whose checkbox
labels are `labels`: (number of filter-panel opens, clicked labels). -/
def filterNews (categories : String) (labels : List String) : Nat × List String :=
  let cats := categorySet categories
  filterLoopAux labels (cats.length + 1) cats

/-! ## Helper lemmas -/

theorem string_append_right_cancel {s1 s2 t : String} (h : s1 ++ t = s2 ++ t) :
    s1 = s2 := by
  cases s1 with | _ d1 =>
  cases s2 with | _ d2 =>
  cases t with | _ dt =>
  simp [String.ext_iff] at h ⊢
  exact h

/-! ## The claims -/

/-- C1: the claim says the next-page action fires iff the current page number
is numerically below the total.  The code compares the two pieces of the
`"current of total"` string with Python string `<`, which is lexicographic:
at `"3 of 20"` it terminates although 3 < 20, and at `"10 of 9"` it advances
although 10 ≥ 9.  The last conjunct runs the whole collection loop on a page
whose indicator reads `"3 of 20"`: no next-page click happens. -/
theorem C1_pagination_compares_strings :
    pageAdvance "3" "20" = false ∧ (3 : Nat) < 20 ∧
    pageAdvance "10" "9" = true ∧ ¬ (10 : Nat) < 9 ∧
    (getNews 0 [⟨[], "3", "20"⟩, ⟨[], "4", "20"⟩]).nextClicks = 0 := by
  refine ⟨by decide, by decide, by decide, by decide, by decide⟩

/-- C2: for an element that reaches the date check (deadline not fired, fault
budget nonzero) and has a non-empty date, if the month difference exceeds the
stored cutoff the item is not persisted and the budget becomes exactly
`rf - 1`; otherwise the item is persisted and the budget is reset to the
constant `FAULTS_TOLERANCE = 5`. -/
theorem C2_cutoff_and_budget (cutoff rf : Int) (it : NewsItem) (rest : List NewsItem)
    (hTime : it.timedOut = false) (hrf : ¬ rf = 0) (hdate : ¬ it.date = "") :
    FAULTS_TOLERANCE = 5 ∧
    (it.monthsDiff > cutoff →
      processItems cutoff (it :: rest) rf =
        ⟨(processItems cutoff rest (rf - 1)).remainingFaults,
         (processItems cutoff rest (rf - 1)).persisted,
         (processItems cutoff rest (rf - 1)).returnedEarly,
         (rf - 1) :: (processItems cutoff rest (rf - 1)).faultTrace⟩) ∧
    (¬ it.monthsDiff > cutoff →
      processItems cutoff (it :: rest) rf =
        ⟨(processItems cutoff rest FAULTS_TOLERANCE).remainingFaults,
         it :: (processItems cutoff rest FAULTS_TOLERANCE).persisted,
         (processItems cutoff rest FAULTS_TOLERANCE).returnedEarly,
         FAULTS_TOLERANCE :: (processItems cutoff rest FAULTS_TOLERANCE).faultTrace⟩) := by
  refine ⟨rfl, ?_, ?_⟩
  · intro hm
    simp [processItems, hTime, hrf, hdate, hm]
  · intro hm
    simp [processItems, hTime, hrf, hdate, hm]

/-- Witness for C2: a too-old item (difference 3 > cutoff 0) is skipped and
the budget drops from 5 to 4. -/
theorem C2_witness :
    FAULTS_TOLERANCE = 5 ∧
    processItems 0 [⟨false, "2024-01-01T00:00:00", 3⟩] 5 = ⟨4, [], false, [4]⟩ := by
  have h := (C2_cutoff_and_budget 0 5 ⟨false, "2024-01-01T00:00:00", 3⟩ []
    rfl (by decide) (by decide)).2.1 (by decide)
  exact ⟨rfl, by rw [h]; decide⟩

/-- C3: the money flag is the disjunctive regular expression applied to title
or description, and the detector accepts `"$11.1"`, `"$111,111.11"`,
`"11 dollars"`, `"11 USD"` (as title or as description) and rejects
`"no currency here"`. -/
theorem C3_money_detector :
    (∀ title description : String,
      getMoney title description =
        (reSearch moneyRE title || reSearch moneyRE description)) ∧
    getMoney "$11.1" "" = true ∧
    getMoney "$111,111.11" "" = true ∧
    getMoney "11 dollars" "" = true ∧
    getMoney "11 USD" "" = true ∧
    getMoney "" "11 USD" = true ∧
    getMoney "no currency here" "no currency here" = false := by
  refine ⟨fun _ _ => rfl, ?_, ?_, ?_, ?_, ?_, ?_⟩ <;> decide

/-- C4: the count field is the sum of the non-overlapping case-sensitive
substring counts over title and description (a natural number, hence ≥ 0);
checked on 0, 1 and several occurrences, on a case mismatch, and on the
non-overlapping count `"aaa".count("aa") = 1`. -/
theorem C4_count_field :
    (∀ title description phrase : String,
      getCount title description phrase =
        pyCount title phrase + pyCount description phrase) ∧
    (∀ title description phrase : String, 0 ≤ getCount title description phrase) ∧
    getCount "abc" "xyz" "q" = 0 ∧
    getCount "dog cat" "" "dog" = 1 ∧
    getCount "ab ab" "ab" "ab" = 3 ∧
    getCount "Ab" "" "ab" = 0 ∧
    getCount "aaa" "" "aa" = 1 := by
  refine ⟨fun _ _ _ => rfl, fun _ _ _ => Nat.zero_le _, ?_, ?_, ?_, ?_, ?_⟩ <;> decide

/-- C5: the stored cutoff is `months` for input 0 and `months - 1` otherwise,
so inputs 0 and 1 coincide; and for an element reaching the date check, the
budget is reset (the persist branch ran) iff the month difference does not
exceed the stored value, and in that case the item is prepended to the
persisted output. -/
theorem C5_months_normalization (months : Int) :
    normMonths 0 = 0 ∧
    (months = 0 → normMonths months = 0) ∧
    (1 ≤ months → normMonths months = months - 1) ∧
    normMonths 0 = normMonths 1 ∧
    (∀ (it : NewsItem) (rest : List NewsItem) (rf : Int),
      it.timedOut = false → 0 < rf → rf ≤ FAULTS_TOLERANCE → ¬ it.date = "" →
      (((processItems (normMonths months) (it :: rest) rf).faultTrace.head? =
          some FAULTS_TOLERANCE) ↔ it.monthsDiff ≤ normMonths months)) ∧
    (∀ (it : NewsItem) (rest : List NewsItem) (rf : Int),
      it.timedOut = false → ¬ rf = 0 → ¬ it.date = "" →
      it.monthsDiff ≤ normMonths months →
      (processItems (normMonths months) (it :: rest) rf).persisted =
        it :: (processItems (normMonths months) rest FAULTS_TOLERANCE).persisted) := by
  refine ⟨rfl, ?_, ?_, by decide, ?_, ?_⟩
  · intro h
    simp [normMonths, h]
  · intro h
    have hne : ¬ (months = 0) := by omega
    simp [normMonths, hne]
  · intro it rest rf hTime hpos hle hdate
    have hrf : ¬ rf = 0 := by omega
    have hle5 : rf ≤ 5 := by simpa [FAULTS_TOLERANCE] using hle
    by_cases hm : it.monthsDiff > normMonths months
    · simp [processItems, hTime, hrf, hdate, hm, FAULTS_TOLERANCE]
      omega
    · simp [processItems, hTime, hrf, hdate, hm, FAULTS_TOLERANCE]
      omega
  · intro it rest rf hTime hrf hdate hq
    have hm : ¬ it.monthsDiff > normMonths months := by omega
    simp [processItems, hTime, hrf, hdate, hm]

/-- Witness for C5: constructor inputs 0 and 1 give the same cutoff, input 3
gives 2, and an item one month old qualifies and is persisted under input 3. -/
theorem C5_witness :
    normMonths 0 = 0 ∧ normMonths 0 = normMonths 1 ∧ normMonths 3 = 2 ∧
    (processItems (normMonths 3) [⟨false, "2024-01-01T00:00:00", 1⟩] 5).persisted =
      [⟨false, "2024-01-01T00:00:00", 1⟩] := by
  refine ⟨(C5_months_normalization 0).1, (C5_months_normalization 0).2.2.2.1, ?_, ?_⟩
  · have h := (C5_months_normalization 3).2.2.1 (by decide)
    rw [h]; decide
  · have h := (C5_months_normalization 3).2.2.2.2.2 ⟨false, "2024-01-01T00:00:00", 1⟩ []
      5 rfl (by decide) (by decide) (by decide)
    rw [h]; decide

/-- C6: an element whose derived date is empty is never persisted and costs
exactly one unit of fault budget: processing it equals processing the rest of
the page with budget `rf - 1`, with nothing appended to the output. -/
theorem C6_empty_date (cutoff rf : Int) (it : NewsItem) (rest : List NewsItem)
    (hTime : it.timedOut = false) (hrf : ¬ rf = 0) (hdate : it.date = "") :
    processItems cutoff (it :: rest) rf =
      ⟨(processItems cutoff rest (rf - 1)).remainingFaults,
       (processItems cutoff rest (rf - 1)).persisted,
       (processItems cutoff rest (rf - 1)).returnedEarly,
       (rf - 1) :: (processItems cutoff rest (rf - 1)).faultTrace⟩ := by
  simp [processItems, hTime, hrf, hdate]

/-- Witness for C6: an empty-date item under full budget is skipped and the
budget drops from 5 to 4. -/
theorem C6_witness :
    processItems 0 [⟨false, "", 0⟩] 5 = ⟨4, [], false, [4]⟩ := by
  have h := C6_empty_date 0 5 ⟨false, "", 0⟩ [] rfl (by decide) rfl
  rw [h]; decide

/-- C7: in picture extraction a `NoSuchElementException` ends the field at
`""` without consuming an attempt; a `StaleElementReferenceException` consumes
one attempt and retries; five consecutive staleness errors exhaust the budget
and leave the field empty (no exception is modelled because none escapes); a
successful screenshot stores the content-addressed filename. -/
theorem C7_picture_retry (env : Nat → PicEvent) :
    (env 0 = PicEvent.noSuchElement → getPicture env = ("", NEWS_ATTEMPTS)) ∧
    (env 0 = PicEvent.staleElement →
      getPicture env = getPictureLoop env (NEWS_ATTEMPTS - 1) 1) ∧
    ((∀ i, i < NEWS_ATTEMPTS → env i = PicEvent.staleElement) →
      getPicture env = ("", 0)) ∧
    (∀ bs, env 0 = PicEvent.found bs →
      getPicture env = (picName bs, NEWS_ATTEMPTS)) := by
  refine ⟨?_, ?_, ?_, ?_⟩
  · intro h
    simp [getPicture, getPictureLoop, NEWS_ATTEMPTS, h]
  · intro h
    simp [getPicture, getPictureLoop, NEWS_ATTEMPTS, h]
  · intro h
    have e0 := h 0 (by decide)
    have e1 := h 1 (by decide)
    have e2 := h 2 (by decide)
    have e3 := h 3 (by decide)
    have e4 := h 4 (by decide)
    simp [getPicture, getPictureLoop, NEWS_ATTEMPTS, e0, e1, e2, e3, e4]
  · intro bs h
    simp [getPicture, getPictureLoop, NEWS_ATTEMPTS, h]

/-- Witness for C7: an immediate no-such-element answer ends with `""` and all
5 attempts left; an always-stale environment ends with `""` and 0 attempts. -/
theorem C7_witness :
    getPicture (fun _ => PicEvent.noSuchElement) = ("", NEWS_ATTEMPTS) ∧
    getPicture (fun _ => PicEvent.staleElement) = ("", 0) :=
  ⟨(C7_picture_retry _).1 rfl, (C7_picture_retry _).2.2.1 (fun _ _ => rfl)⟩

set_option maxRecDepth 40000 in
/-- C8: the picture filename is the SHA-1 hex digest of the screenshot bytes
followed by `".png"`; equal bytes give the identical filename, and equal
filenames force equal digests (so names differ unless SHA-1 collides).  The
embedded SHA-1 is validated against the FIPS 180 test vectors for `"abc"` and
the empty message. -/
theorem C8_content_addressed_names :
    (∀ bs : List Nat, picName bs = sha1Hex bs ++ ".png") ∧
    (∀ b1 b2 : List Nat, b1 = b2 → picName b1 = picName b2) ∧
    (∀ b1 b2 : List Nat, picName b1 = picName b2 → sha1Hex b1 = sha1Hex b2) ∧
    sha1Hex [97, 98, 99] = "a9993e364706816aba3e25717850c26c9cd0d89d" ∧
    sha1Hex [] = "da39a3ee5e6b4b0d3255bfef95601890afd80709" ∧
    picName [97, 98, 99] ≠ picName [] := by
  refine ⟨fun _ => rfl, fun b1 b2 h => by rw [h], ?_, by decide, by decide, by decide⟩
  intro b1 b2 h
  exact string_append_right_cancel h

/-- Witness for C8: the determinism and digest-equality implications applied
at equal concrete byte strings. -/
theorem C8_witness :
    picName [97] = picName [97] ∧ sha1Hex [97] = sha1Hex [97] :=
  ⟨C8_content_addressed_names.2.1 [97] [97] rfl,
   C8_content_addressed_names.2.2.1 [97] [97] rfl⟩


theorem filterNews_empty_cases (labels : List String) :
    filterNews "" labels =
      match labels.find? (fun l => ([""] : List String).contains (pyLower l)) with
      | some l => (1, [pyLower l])
      | none => (1, []) := by
  have hc : categorySet "" = [""] := by decide
  have h2 : filterNews "" labels = filterLoopAux labels 2 [""] := by
    unfold filterNews
    rw [hc]
    rfl
  rw [h2]
  rcases hf : labels.find? (fun l => ([""] : List String).contains (pyLower l)) with _ | l
  · simp only [filterLoopAux, List.isEmpty_cons, Bool.false_eq_true, if_false, hf]
  · have hl : ("" : String) = pyLower l := by
      have hp := List.find?_some hf
      simp at hp
      exact hp.symm
    simp only [filterLoopAux, List.isEmpty_cons, Bool.false_eq_true, if_false, hf]
    rw [← hl]
    simp [filterLoopAux]

theorem C9_empty_categories_not_noop :
    categorySet "" = [""] ∧
    (∀ labels : List String, 1 ≤ (filterNews "" labels).1) ∧
    (∀ labels : List String,
      labels.find? (fun l => (categorySet "").contains (pyLower l)) = none →
      filterNews "" labels = (1, [])) ∧
    (∀ (labels : List String) (l : String),
      labels.find? (fun l => (categorySet "").contains (pyLower l)) = some l →
      filterNews "" labels = (1, [""])) := by
  have hc : categorySet "" = [""] := by decide
  refine ⟨hc, ?_, ?_, ?_⟩
  · intro labels
    rw [filterNews_empty_cases]
    rcases hf : labels.find? (fun l => ([""] : List String).contains (pyLower l)) with _ | l
    · simp
    · simp
  · intro labels h
    rw [hc] at h
    rw [filterNews_empty_cases, h]
  · intro labels l h
    rw [hc] at h
    have hl : ("" : String) = pyLower l := by
      have hp := List.find?_some h
      simp at hp
      exact hp.symm
    rw [filterNews_empty_cases, h]
    simp [← hl]

theorem C9_witness :
    filterNews "" ["News", "", "Video"] = (1, [""]) ∧
    filterNews "" ["News", "Video"] = (1, []) :=
  ⟨C9_empty_categories_not_noop.2.2.2 ["News", "", "Video"] "" (by decide),
   C9_empty_categories_not_noop.2.2.1 ["News", "Video"] (by decide)⟩


theorem processItems_nil (cutoff rf : Int) :
    processItems cutoff [] rf = ⟨rf, [], false, []⟩ := rfl

theorem processItems_guard (cutoff rf : Int) (it : NewsItem) (rest : List NewsItem)
    (hg : it.timedOut = true ∨ rf = 0) :
    processItems cutoff (it :: rest) rf = ⟨rf, [], true, []⟩ := by
  simp [processItems, hg]

theorem processItems_skip (cutoff rf : Int) (it : NewsItem) (rest : List NewsItem)
    (hg : ¬ (it.timedOut = true ∨ rf = 0))
    (hskip : it.date = "" ∨ it.monthsDiff > cutoff) :
    processItems cutoff (it :: rest) rf =
      ⟨(processItems cutoff rest (rf - 1)).remainingFaults,
       (processItems cutoff rest (rf - 1)).persisted,
       (processItems cutoff rest (rf - 1)).returnedEarly,
       (rf - 1) :: (processItems cutoff rest (rf - 1)).faultTrace⟩ := by
  push_neg at hg
  by_cases hd : it.date = ""
  · simp [processItems, hg.1, hg.2, hd]
  · have hm : it.monthsDiff > cutoff := by tauto
    simp [processItems, hg.1, hg.2, hd, hm]

theorem processItems_persist (cutoff rf : Int) (it : NewsItem) (rest : List NewsItem)
    (hg : ¬ (it.timedOut = true ∨ rf = 0)) (hd : ¬ it.date = "")
    (hm : ¬ it.monthsDiff > cutoff) :
    processItems cutoff (it :: rest) rf =
      ⟨(processItems cutoff rest FAULTS_TOLERANCE).remainingFaults,
       it :: (processItems cutoff rest FAULTS_TOLERANCE).persisted,
       (processItems cutoff rest FAULTS_TOLERANCE).returnedEarly,
       FAULTS_TOLERANCE :: (processItems cutoff rest FAULTS_TOLERANCE).faultTrace⟩ := by
  push_neg at hg
  simp [processItems, hg.1, hg.2, hd, hm]

theorem processItems_bounds (cutoff : Int) (items : List NewsItem) (rf : Int)
    (h0 : 0 ≤ rf) (h5 : rf ≤ FAULTS_TOLERANCE) :
    (0 ≤ (processItems cutoff items rf).remainingFaults ∧
     (processItems cutoff items rf).remainingFaults ≤ FAULTS_TOLERANCE) ∧
    (∀ v ∈ (processItems cutoff items rf).faultTrace,
      0 ≤ v ∧ v ≤ FAULTS_TOLERANCE) := by
  induction items generalizing rf with
  | nil =>
    rw [processItems_nil]
    exact ⟨⟨h0, h5⟩, fun v hv => absurd hv (List.not_mem_nil v)⟩
  | cons it rest ih =>
    by_cases hg : it.timedOut = true ∨ rf = 0
    · rw [processItems_guard cutoff rf it rest hg]
      exact ⟨⟨h0, h5⟩, fun v hv => absurd hv (List.not_mem_nil v)⟩
    · have h1 : (0 : Int) ≤ rf - 1 := by
        rcases not_or.mp hg with ⟨_, hz⟩
        omega
      have h2 : rf - 1 ≤ FAULTS_TOLERANCE := by
        have hF : (0 : Int) ≤ FAULTS_TOLERANCE := by decide
        omega
      by_cases hskip : it.date = "" ∨ it.monthsDiff > cutoff
      · obtain ⟨hb, ht⟩ := ih (rf - 1) h1 h2
        rw [processItems_skip cutoff rf it rest hg hskip]
        refine ⟨hb, ?_⟩
        intro v hv
        rcases List.mem_cons.mp hv with rfl | hv2
        · exact ⟨h1, h2⟩
        · exact ht v hv2
      · obtain ⟨hb, ht⟩ := ih FAULTS_TOLERANCE (by decide) le_rfl
        push_neg at hskip
        rw [processItems_persist cutoff rf it rest hg hskip.1 (by omega)]
        refine ⟨hb, ?_⟩
        intro v hv
        rcases List.mem_cons.mp hv with rfl | hv2
        · exact ⟨by decide, le_rfl⟩
        · exact ht v hv2

theorem getNewsLoop_nil (cutoff rf : Int) :
    getNewsLoop cutoff [] rf = ⟨rf, [], 0, []⟩ := rfl

theorem getNewsLoop_stop (cutoff : Int) (pg : ResultsPage) (rest : List ResultsPage)
    (rf : Int) (h : ¬ rf > 0) :
    getNewsLoop cutoff (pg :: rest) rf = ⟨rf, [], 0, []⟩ := by
  simp [getNewsLoop, h]

theorem getNewsLoop_early (cutoff : Int) (pg : ResultsPage) (rest : List ResultsPage)
    (rf : Int) (h : rf > 0)
    (he : (processItems cutoff pg.items rf).returnedEarly = true) :
    getNewsLoop cutoff (pg :: rest) rf =
      ⟨(processItems cutoff pg.items rf).remainingFaults,
       (processItems cutoff pg.items rf).persisted, 0,
       (processItems cutoff pg.items rf).faultTrace⟩ := by
  simp [getNewsLoop, h, he]

theorem getNewsLoop_advance (cutoff : Int) (pg : ResultsPage) (rest : List ResultsPage)
    (rf : Int) (h : rf > 0)
    (he : (processItems cutoff pg.items rf).returnedEarly = false)
    (ha : pageAdvance pg.current pg.total = true) :
    getNewsLoop cutoff (pg :: rest) rf =
      ⟨(getNewsLoop cutoff rest (processItems cutoff pg.items rf).remainingFaults).remainingFaults,
       (processItems cutoff pg.items rf).persisted ++
         (getNewsLoop cutoff rest (processItems cutoff pg.items rf).remainingFaults).persisted,
       (getNewsLoop cutoff rest (processItems cutoff pg.items rf).remainingFaults).nextClicks + 1,
       (processItems cutoff pg.items rf).faultTrace ++
         (getNewsLoop cutoff rest (processItems cutoff pg.items rf).remainingFaults).faultTrace⟩ := by
  simp [getNewsLoop, h, he, ha]

theorem getNewsLoop_done (cutoff : Int) (pg : ResultsPage) (rest : List ResultsPage)
    (rf : Int) (h : rf > 0)
    (he : (processItems cutoff pg.items rf).returnedEarly = false)
    (ha : pageAdvance pg.current pg.total = false) :
    getNewsLoop cutoff (pg :: rest) rf =
      ⟨(processItems cutoff pg.items rf).remainingFaults,
       (processItems cutoff pg.items rf).persisted, 0,
       (processItems cutoff pg.items rf).faultTrace⟩ := by
  simp [getNewsLoop, h, he, ha]

theorem getNewsLoop_bounds (cutoff : Int) (pages : List ResultsPage) (rf : Int)
    (h0 : 0 ≤ rf) (h5 : rf ≤ FAULTS_TOLERANCE) :
    (0 ≤ (getNewsLoop cutoff pages rf).remainingFaults ∧
     (getNewsLoop cutoff pages rf).remainingFaults ≤ FAULTS_TOLERANCE) ∧
    (∀ v ∈ (getNewsLoop cutoff pages rf).faultTrace,
      0 ≤ v ∧ v ≤ FAULTS_TOLERANCE) := by
  induction pages generalizing rf with
  | nil =>
    rw [getNewsLoop_nil]
    exact ⟨⟨h0, h5⟩, fun v hv => absurd hv (List.not_mem_nil v)⟩
  | cons pg rest ih =>
    by_cases hrf : rf > 0
    · obtain ⟨hb, ht⟩ := processItems_bounds cutoff pg.items rf h0 h5
      by_cases he : (processItems cutoff pg.items rf).returnedEarly = true
      · rw [getNewsLoop_early cutoff pg rest rf hrf he]
        exact ⟨hb, ht⟩
      · have he2 : (processItems cutoff pg.items rf).returnedEarly = false :=
          Bool.not_eq_true _ ▸ eq_false_of_ne_true he
        by_cases ha : pageAdvance pg.current pg.total = true
        · obtain ⟨hb2, ht2⟩ :=
            ih (processItems cutoff pg.items rf).remainingFaults hb.1 hb.2
          rw [getNewsLoop_advance cutoff pg rest rf hrf he2 ha]
          refine ⟨hb2, ?_⟩
          intro v hv
          rcases List.mem_append.mp hv with hm | hm
          · exact ht v hm
          · exact ht2 v hm
        · have ha2 : pageAdvance pg.current pg.total = false :=
            Bool.not_eq_true _ ▸ eq_false_of_ne_true ha
          rw [getNewsLoop_done cutoff pg rest rf hrf he2 ha2]
          exact ⟨hb, ht⟩
    · rw [getNewsLoop_stop cutoff pg rest rf hrf]
      exact ⟨⟨h0, h5⟩, fun v hv => absurd hv (List.not_mem_nil v)⟩

theorem processItems_zero_budget (cutoff : Int) (items : List NewsItem) :
    (processItems cutoff items 0).persisted = [] ∧
    (processItems cutoff items 0).faultTrace = [] ∧
    (processItems cutoff items 0).remainingFaults = 0 := by
  cases items with
  | nil => simp [processItems]
  | cons it rest => simp [processItems]

theorem getNewsLoop_zero_budget (cutoff : Int) (pages : List ResultsPage) :
    getNewsLoop cutoff pages 0 = ⟨0, [], 0, []⟩ := by
  cases pages with
  | nil => rfl
  | cons pg rest => simp [getNewsLoop]

theorem getNewsLoop_exhausted_click (cutoff : Int) (pg : ResultsPage)
    (rest : List ResultsPage) (rf : Int) (hrf : 0 < rf)
    (hz : (processItems cutoff pg.items rf).remainingFaults = 0)
    (he : (processItems cutoff pg.items rf).returnedEarly = false) :
    (getNewsLoop cutoff (pg :: rest) rf).nextClicks ≤ 1 ∧
    (getNewsLoop cutoff (pg :: rest) rf).persisted =
      (processItems cutoff pg.items rf).persisted := by
  by_cases ha : pageAdvance pg.current pg.total = true
  · rw [getNewsLoop_advance cutoff pg rest rf hrf he ha, hz,
      getNewsLoop_zero_budget]
    simp
  · have ha2 : pageAdvance pg.current pg.total = false :=
      Bool.not_eq_true _ ▸ eq_false_of_ne_true ha
    rw [getNewsLoop_done cutoff pg rest rf hrf he ha2]
    simp

theorem C10_fault_budget_invariant (cutoff : Int) (pages : List ResultsPage) :
    FAULTS_TOLERANCE = 5 ∧
    getNews cutoff pages = getNewsLoop cutoff pages FAULTS_TOLERANCE ∧
    (0 ≤ (getNews cutoff pages).remainingFaults ∧
     (getNews cutoff pages).remainingFaults ≤ FAULTS_TOLERANCE) ∧
    (∀ v ∈ (getNews cutoff pages).faultTrace, 0 ≤ v ∧ v ≤ FAULTS_TOLERANCE) ∧
    (∀ items : List NewsItem,
      (processItems cutoff items 0).persisted = [] ∧
      (processItems cutoff items 0).faultTrace = []) ∧
    getNewsLoop cutoff pages 0 = ⟨0, [], 0, []⟩ ∧
    (∀ (pg : ResultsPage) (rest : List ResultsPage) (rf : Int), 0 < rf →
      (processItems cutoff pg.items rf).remainingFaults = 0 →
      (processItems cutoff pg.items rf).returnedEarly = false →
      (getNewsLoop cutoff (pg :: rest) rf).nextClicks ≤ 1 ∧
      (getNewsLoop cutoff (pg :: rest) rf).persisted =
        (processItems cutoff pg.items rf).persisted) := by
  obtain ⟨hb, ht⟩ := getNewsLoop_bounds cutoff pages FAULTS_TOLERANCE (by decide) le_rfl
  refine ⟨rfl, rfl, hb, ht, ?_, getNewsLoop_zero_budget cutoff pages, ?_⟩
  · intro items
    exact ⟨(processItems_zero_budget cutoff items).1,
           (processItems_zero_budget cutoff items).2.1⟩
  · intro pg rest rf hrf hz he
    exact getNewsLoop_exhausted_click cutoff pg rest rf hrf hz he

theorem C10_witness :
    (getNewsLoop 0 [⟨List.replicate 5 ⟨false, "", 0⟩, "1", "9"⟩, ⟨[], "2", "9"⟩] 5).nextClicks ≤ 1 ∧
    (getNewsLoop 0 [⟨List.replicate 5 ⟨false, "", 0⟩, "1", "9"⟩, ⟨[], "2", "9"⟩] 5).persisted =
      (processItems 0 (⟨List.replicate 5 ⟨false, "", 0⟩, "1", "9"⟩ : ResultsPage).items 5).persisted :=
  (C10_fault_budget_invariant 0 [⟨[], "2", "9"⟩]).2.2.2.2.2.2
    ⟨List.replicate 5 ⟨false, "", 0⟩, "1", "9"⟩ [⟨[], "2", "9"⟩] 5
    (by decide) (by decide) (by decide)

end FreshNews
